import Mathlib

/-!
Shallow embedding of the devflow-backend Q&A REST API (Express + Mongoose).

Document stores are association lists `List (Id × Doc)`; `lookupD` models
`Model.findById`, `updateD` models fetching a document and writing the
modified snapshot back with `doc.save()`, `removeD` models `doc.deleteOne()`,
and `List.filter` models `Model.deleteMany`.  The `Vote` collection has no
handler-visible `_id`, so it is a plain `List VoteDoc`; `Vote.findOne` is
`List.find?` in insertion order and `Vote.create` appends.  Route handlers
become functions `AppState → ... → HResult × AppState`; the `protect`
middleware is modelled by passing the authenticated user id, `optionalAuth`
by an `Option Id`.
-/

namespace DevFlow

abbrev Id := Nat

inductive Role where
  | user
  | expert
  | admin
deriving DecidableEq, Repr

structure UserDoc where
  username : String
  reputation : Int
  role : Role
deriving DecidableEq, Repr

inductive TargetType where
  | question
  | answer
deriving DecidableEq, Repr

structure QuestionDoc where
  title : String
  body : String
  asker : Id
  tags : List String
  votes : Int
  views : Int
  viewers : List Id
  acceptedAnswer : Option Id
  isLocked : Bool
  isPinned : Bool
deriving DecidableEq, Repr

structure AnswerDoc where
  questionId : Id
  answerer : Id
  body : String
  votes : Int
  isAccepted : Bool
  isVerified : Bool
  verifiedBy : Option Id
deriving DecidableEq, Repr

structure CommentDoc where
  body : String
  author : Id
  targetType : TargetType
  targetId : Id
deriving DecidableEq, Repr

structure VoteDoc where
  user : Id
  targetType : TargetType
  targetId : Id
  value : Int
deriving DecidableEq, Repr

structure AppState where
  users : List (Id × UserDoc)
  questions : List (Id × QuestionDoc)
  answers : List (Id × AnswerDoc)
  comments : List (Id × CommentDoc)
  votes : List VoteDoc
deriving DecidableEq, Repr

/-- HTTP outcome of a handler, with the response message where the code
sends one. -/
inductive HResult where
  | ok : String → HResult
  | created : String → HResult
  | badRequest : String → HResult
  | notFound : String → HResult
  | forbidden : String → HResult
  | serverError : String → HResult
deriving DecidableEq, Repr

/-- A 2xx outcome. -/
def isSuccess : HResult → Prop
  | .ok _ => True
  | .created _ => True
  | _ => False

instance : DecidablePred isSuccess := by
  intro r
  cases r <;> simp [isSuccess] <;> infer_instance

/-- Model lookup (`findById`): first document with the given id. -/
def lookupD {α : Type} : List (Id × α) → Id → Option α
  | [], _ => none
  | (k, v) :: t, i => if k = i then some v else lookupD t i

/-- Apply `f` to the document(s) stored under id `i`. -/
def modifyD {α : Type} (l : List (Id × α)) (i : Id) (f : α → α) : List (Id × α) :=
  l.map (fun p => if p.1 = i then (i, f p.2) else p)

/-- Write the snapshot `d` back under id `i` (`doc.save()`). -/
def updateD {α : Type} (l : List (Id × α)) (i : Id) (d : α) : List (Id × α) :=
  modifyD l i (fun _ => d)

/-- Deletion (`doc.deleteOne()`): drop the document(s) stored under id `i`. -/
def removeD {α : Type} (l : List (Id × α)) (i : Id) : List (Id × α) :=
  l.filter (fun p => decide (p.1 ≠ i))

/-- Does a vote document match the `findOne` key `(user, targetType, targetId)`? -/
def voteKeyMatches (u : Id) (tt : TargetType) (tid : Id) (w : VoteDoc) : Bool :=
  decide (w.user = u ∧ w.targetType = tt ∧ w.targetId = tid)

/-- Lookup of `Vote.findOne` with key user, targetType, targetId. -/
def findVote (votes : List VoteDoc) (u : Id) (tt : TargetType) (tid : Id) : Option VoteDoc :=
  votes.find? (voteKeyMatches u tt tid)

/-- Remove the first element satisfying `p` (`existingVote.deleteOne()`). -/
def eraseFirst {α : Type} (p : α → Bool) : List α → List α
  | [] => []
  | x :: t => if p x then t else x :: eraseFirst p t

/-- Update the first element satisfying `p` (`existingVote.save()`). -/
def updateFirst {α : Type} (p : α → Bool) (f : α → α) : List α → List α
  | [] => []
  | x :: t => if p x then f x :: t else x :: updateFirst p f t

/-- Reputation increment, `findByIdAndUpdate` with an inc modifier: a no-op
when the user does not exist. -/
def incReputation (s : AppState) (uid : Id) (d : Int) : AppState :=
  { s with users := modifyD s.users uid (fun u => { u with reputation := u.reputation + d }) }

/-- Reputation of a user, when the user exists. -/
def repOf (s : AppState) (uid : Id) : Option Int :=
  (lookupD s.users uid).map (·.reputation)

/-! ## Route handlers

Each definition mirrors one Express handler, with its checks in source
order.  `userId` is the verified id installed by the `protect` middleware.
At places where the JS would dereference a missing user document
(`user.role` on a `null`), the thrown `TypeError` is caught by the
surrounding `try` and reported as a 500, which we model as
`serverError` with no state change. -/

/-- routes/questions.js `GET /:id` (view-counting part, via `optionalAuth`):
a logged-in user not yet in `viewers` is appended and `views` incremented;
otherwise `save()` writes no modified path. -/
def getQuestion (s : AppState) (userIdOpt : Option Id) (qid : Id) : HResult × AppState :=
  match lookupD s.questions qid with
  | none => (.notFound "Question not found", s)
  | some question =>
    match userIdOpt with
    | some uid =>
      if question.viewers.contains uid then
        (.ok "question", s)
      else
        (.ok "question",
          { s with questions := (updateD s.questions qid
              { question with viewers := question.viewers ++ [uid],
                              views := question.views + 1 }) })
    | none => (.ok "question", s)

/-- routes/questions.js `DELETE /:id`: asker or admin; deletes the answers of
the question and the comments whose target is the question itself, then the
question. -/
def deleteQuestion (s : AppState) (userId qid : Id) : HResult × AppState :=
  match lookupD s.questions qid with
  | none => (.notFound "Question not found", s)
  | some question =>
    match lookupD s.users userId with
    | none => (.serverError "Cannot read properties of null", s)
    | some user =>
      if question.asker ≠ userId ∧ user.role ≠ Role.admin then
        (.forbidden "Not authorized to delete this question", s)
      else
        let s1 := { s with answers := s.answers.filter (fun p => decide (p.2.questionId ≠ qid)) }
        let s2 := { s1 with comments := (s1.comments.filter
            (fun p => decide (¬(p.2.targetType = TargetType.question ∧ p.2.targetId = qid)))) }
        let s3 := { s2 with questions := removeD s2.questions qid }
        (.ok "Question deleted successfully", s3)

/-- routes/questions.js `DELETE /:id/answers/:answerId`: answerer or admin;
deletes the answer and the comments targeting it (the `:id` segment is never
consulted). -/
def deleteAnswerQ (s : AppState) (userId : Id) (_qid : Id) (aid : Id) : HResult × AppState :=
  match lookupD s.answers aid with
  | none => (.notFound "Answer not found", s)
  | some answer =>
    match lookupD s.users userId with
    | none => (.serverError "Cannot read properties of null", s)
    | some user =>
      if answer.answerer ≠ userId ∧ user.role ≠ Role.admin then
        (.forbidden "Not authorized to delete this answer", s)
      else
        let s1 := { s with answers := removeD s.answers aid }
        let s2 := { s1 with comments := (s1.comments.filter
            (fun p => decide (¬(p.2.targetType = TargetType.answer ∧ p.2.targetId = aid)))) }
        (.ok "Answer deleted successfully", s2)

/-- routes/answers.js `DELETE /:answerId`: answerer or admin; deletes only
the answer document, no comment cascade. -/
def deleteAnswerA (s : AppState) (userId aid : Id) : HResult × AppState :=
  match lookupD s.answers aid with
  | none => (.notFound "Answer not found", s)
  | some answer =>
    match lookupD s.users userId with
    | none => (.serverError "Cannot read properties of null", s)
    | some user =>
      if ¬(answer.answerer = userId) ∧ ¬(user.role = Role.admin) then
        (.forbidden "Not authorized to delete this answer", s)
      else
        (.ok "Answer deleted successfully", { s with answers := removeD s.answers aid })

/-- routes/questions.js `POST /:id/upvote`. -/
def upvoteQuestion (s : AppState) (userId qid : Id) : HResult × AppState :=
  match lookupD s.questions qid with
  | none => (.notFound "Question not found", s)
  | some question =>
    if question.asker = userId then
      (.badRequest "You cannot vote on your own question", s)
    else
      (.ok "Question upvoted successfully",
        { s with questions := updateD s.questions qid { question with votes := question.votes + 1 } })

/-- routes/questions.js `POST /:id/downvote`. -/
def downvoteQuestion (s : AppState) (userId qid : Id) : HResult × AppState :=
  match lookupD s.questions qid with
  | none => (.notFound "Question not found", s)
  | some question =>
    if question.asker = userId then
      (.badRequest "You cannot vote on your own question", s)
    else
      (.ok "Question downvoted successfully",
        { s with questions := updateD s.questions qid { question with votes := question.votes - 1 } })

/-- routes/questions.js `POST /:id/answers/:answerId/upvote` (the `:id`
segment is never consulted). -/
def upvoteAnswer (s : AppState) (userId : Id) (_qid : Id) (aid : Id) : HResult × AppState :=
  match lookupD s.answers aid with
  | none => (.notFound "Answer not found", s)
  | some answer =>
    if answer.answerer = userId then
      (.badRequest "You cannot vote on your own answer", s)
    else
      (.ok "Answer upvoted successfully",
        { s with answers := updateD s.answers aid { answer with votes := answer.votes + 1 } })

/-- routes/questions.js `POST /:id/answers/:answerId/downvote`. -/
def downvoteAnswer (s : AppState) (userId : Id) (_qid : Id) (aid : Id) : HResult × AppState :=
  match lookupD s.answers aid with
  | none => (.notFound "Answer not found", s)
  | some answer =>
    if answer.answerer = userId then
      (.badRequest "You cannot vote on your own answer", s)
    else
      (.ok "Answer downvoted successfully",
        { s with answers := updateD s.answers aid { answer with votes := answer.votes - 1 } })

/-- routes/questions.js `PUT /:id/answers/:answerId/accept`: only the asker;
unaccepts the previously accepted answer, accepts the new one, updates
`acceptedAnswer`.  Touches no reputation. -/
def acceptAnswerQ (s : AppState) (userId qid aid : Id) : HResult × AppState :=
  match lookupD s.questions qid with
  | none => (.notFound "Question not found", s)
  | some question =>
    if question.asker ≠ userId then
      (.forbidden "Only the question asker can accept answers", s)
    else
      match lookupD s.answers aid with
      | none => (.notFound "Answer not found", s)
      | some answer =>
        if answer.questionId ≠ qid then
          (.badRequest "Answer does not belong to this question", s)
        else
          let s1 :=
            match question.acceptedAnswer with
            | some oldId =>
              match lookupD s.answers oldId with
              | some oldA =>
                { s with answers := updateD s.answers oldId { oldA with isAccepted := false } }
              | none => s
            | none => s
          let s2 := { s1 with answers := updateD s1.answers aid { answer with isAccepted := true } }
          let s3 := { s2 with questions := (updateD s2.questions qid
              { question with acceptedAnswer := some aid }) }
          (.ok "Answer accepted successfully", s3)

/-- routes/answers.js `PUT /:answerId/accept`: only the asker; unaccepts the
previous answer and debits its answerer 15 reputation, accepts the new one
and credits its answerer 15 reputation. -/
def acceptAnswerA (s : AppState) (userId aid : Id) : HResult × AppState :=
  match lookupD s.answers aid with
  | none => (.notFound "Answer not found", s)
  | some answer =>
    match lookupD s.questions answer.questionId with
    | none => (.notFound "Question not found", s)
    | some question =>
      if question.asker ≠ userId then
        (.forbidden "Only the question asker can accept answers", s)
      else
        let s1 :=
          match question.acceptedAnswer with
          | some prevId =>
            match lookupD s.answers prevId with
            | some prevA =>
              incReputation
                { s with answers := updateD s.answers prevId { prevA with isAccepted := false } }
                prevA.answerer (-15)
            | none => s
          | none => s
        let s2 := { s1 with answers := updateD s1.answers aid { answer with isAccepted := true } }
        let s3 := { s2 with questions := (updateD s2.questions answer.questionId
            { question with acceptedAnswer := some aid }) }
        let s4 := incReputation s3 answer.answerer 15
        (.ok "answer accepted", s4)

/-- routes/comments.js `DELETE /:id`: only the comment's author may delete. -/
def deleteCommentC (s : AppState) (userId cid : Id) : HResult × AppState :=
  match lookupD s.comments cid with
  | none => (.notFound "Comment not found", s)
  | some comment =>
    if comment.author ≠ userId then
      (.forbidden "Not authorized to delete this comment", s)
    else
      (.ok "Comment deleted successfully", { s with comments := removeD s.comments cid })

/-- The comments router in src/unnamed/part_003, `DELETE /:id`: the
comment's author or an admin may delete. -/
def deleteCommentU (s : AppState) (userId cid : Id) : HResult × AppState :=
  match lookupD s.comments cid with
  | none => (.notFound "Comment not found", s)
  | some comment =>
    match lookupD s.users userId with
    | none => (.serverError "Cannot read properties of null", s)
    | some user =>
      if comment.author ≠ userId ∧ user.role ≠ Role.admin then
        (.forbidden "Not authorized to delete this comment", s)
      else
        (.ok "Comment deleted successfully", { s with comments := removeD s.comments cid })

/-- The `targetType` string of a valid vote request, as a `TargetType`. -/
def ttOf (targetTypeStr : String) : TargetType :=
  if targetTypeStr = "question" then TargetType.question else TargetType.answer

/-- Owner (asker / answerer) of a vote target, when it exists. -/
def targetOwner (s : AppState) (tt : TargetType) (tid : Id) : Option Id :=
  match tt with
  | .question => (lookupD s.questions tid).map (·.asker)
  | .answer => (lookupD s.answers tid).map (·.answerer)

/-- Vote counter of a vote target, when it exists. -/
def targetVotes (s : AppState) (tt : TargetType) (tid : Id) : Option Int :=
  match tt with
  | .question => (lookupD s.questions tid).map (·.votes)
  | .answer => (lookupD s.answers tid).map (·.votes)

/-- Counter update `target.votes += d` followed by `target.save()`. -/
def addTargetVotes (s : AppState) (tt : TargetType) (tid : Id) (d : Int) : AppState :=
  match tt with
  | .question =>
    { s with questions := modifyD s.questions tid (fun q => { q with votes := q.votes + d }) }
  | .answer =>
    { s with answers := modifyD s.answers tid (fun a => { a with votes := a.votes + d }) }

/-- The votes router in src/unnamed/part_003, `POST /`: validate, look up
target, then toggle off / change / create the caller's vote, applying the
same delta to the target's counter and the owner's reputation. -/
def postVote (s : AppState) (userId : Id) (targetTypeStr : String) (targetId : Id)
    (value : Int) : HResult × AppState :=
  if ¬(targetTypeStr = "question" ∨ targetTypeStr = "answer") then
    (.badRequest "Invalid target type", s)
  else if ¬(value = 1 ∨ value = -1) then
    (.badRequest "Vote value must be 1 or -1", s)
  else
    let tt := ttOf targetTypeStr
    match targetOwner s tt targetId with
    | none => (.notFound (targetTypeStr ++ " not found"), s)
    | some ownerId =>
      match findVote s.votes userId tt targetId with
      | some existingVote =>
        if existingVote.value = value then
          let s1 := { s with votes := eraseFirst (voteKeyMatches userId tt targetId) s.votes }
          let s2 := addTargetVotes s1 tt targetId (-value)
          let s3 := incReputation s2 ownerId (-value)
          (.ok "Vote removed", s3)
        else
          let diff := value - existingVote.value
          let s1 := { s with votes := (updateFirst (voteKeyMatches userId tt targetId)
              (fun w => { w with value := value }) s.votes) }
          let s2 := addTargetVotes s1 tt targetId diff
          let s3 := incReputation s2 ownerId diff
          (.ok "Vote updated", s3)
      | none =>
        let s1 := { s with votes := s.votes ++ [⟨userId, tt, targetId, value⟩] }
        let s2 := addTargetVotes s1 tt targetId value
        let s3 := incReputation s2 ownerId value
        (.created "Vote recorded", s3)

/-- Accepted-answer consistency for question `qid`: an answer of the
question carries `isAccepted = true` exactly when the question's
`acceptedAnswer` field names it. -/
def accConsistent (s : AppState) (qid : Id) : Prop :=
  ∀ qp ∈ s.questions, qp.1 = qid →
    ∀ ap ∈ s.answers, ap.2.questionId = qid →
      (ap.2.isAccepted = true ↔ qp.2.acceptedAnswer = some ap.1)

instance (s : AppState) (qid : Id) : Decidable (accConsistent s qid) := by
  unfold accConsistent
  infer_instance

/-- At most one Vote document per `(user, targetType, targetId)` key. -/
def voteUnique (votes : List VoteDoc) : Prop :=
  List.Pairwise
    (fun v w => ¬(v.user = w.user ∧ v.targetType = w.targetType ∧ v.targetId = w.targetId))
    votes

instance (votes : List VoteDoc) : Decidable (voteUnique votes) := by
  unfold voteUnique
  infer_instance

/-! ## Concrete example states used by witnesses and counterexamples -/

def uAsker : UserDoc := { username := "asker", reputation := 0, role := .user }

def uAnswerer : UserDoc := { username := "answerer", reputation := 0, role := .user }

def uAdmin : UserDoc := { username := "moderator", reputation := 0, role := .admin }

def exQuestion : QuestionDoc :=
  { title := "t", body := "b", asker := 0, tags := [], votes := 0, views := 0,
    viewers := [], acceptedAnswer := none, isLocked := false, isPinned := false }

def exAnswer : AnswerDoc :=
  { questionId := 10, answerer := 1, body := "a", votes := 0, isAccepted := false,
    isVerified := false, verifiedBy := none }

def exCommentOnAnswer : CommentDoc :=
  { body := "c", author := 1, targetType := .answer, targetId := 20 }

def exCommentOnQuestion : CommentDoc :=
  { body := "d", author := 1, targetType := .question, targetId := 10 }

/-- A small valid state: asker 0 owns question 10; answerer 1 owns answer 20
on it; comment 30 (by user 1) targets answer 20, comment 31 (by user 1)
targets question 10; user 2 is an admin; no votes. -/
def exState : AppState :=
  { users := [(0, uAsker), (1, uAnswerer), (2, uAdmin)],
    questions := [(10, exQuestion)],
    answers := [(20, exAnswer)],
    comments := [(30, exCommentOnAnswer), (31, exCommentOnQuestion)],
    votes := [] }

/-! ## Store lemmas -/

@[simp] theorem lookupD_nil {α : Type} (i : Id) : lookupD ([] : List (Id × α)) i = none := rfl

@[simp] theorem lookupD_cons {α : Type} (k : Id) (v : α) (t : List (Id × α)) (i : Id) :
    lookupD ((k, v) :: t) i = if k = i then some v else lookupD t i := rfl

@[simp] theorem modifyD_nil {α : Type} (i : Id) (f : α → α) :
    modifyD ([] : List (Id × α)) i f = [] := rfl

@[simp] theorem modifyD_cons {α : Type} (k : Id) (v : α) (t : List (Id × α)) (i : Id)
    (f : α → α) :
    modifyD ((k, v) :: t) i f = (if k = i then (i, f v) else (k, v)) :: modifyD t i f := rfl

@[simp] theorem removeD_nil {α : Type} (i : Id) : removeD ([] : List (Id × α)) i = [] := rfl

@[simp] theorem removeD_cons {α : Type} (k : Id) (v : α) (t : List (Id × α)) (i : Id) :
    removeD ((k, v) :: t) i = if k = i then removeD t i else (k, v) :: removeD t i := by
  by_cases hk : k = i
  · simp [removeD, List.filter_cons, hk]
  · simp [removeD, List.filter_cons, hk]

theorem lookupD_modifyD_self {α : Type} (l : List (Id × α)) (i : Id) (f : α → α) :
    lookupD (modifyD l i f) i = (lookupD l i).map f := by
  induction l with
  | nil => rfl
  | cons p t ih =>
    obtain ⟨k, v⟩ := p
    by_cases hk : k = i
    · subst hk
      simp
    · simp [hk, ih]

theorem lookupD_modifyD_ne {α : Type} (l : List (Id × α)) (i j : Id) (f : α → α)
    (h : j ≠ i) : lookupD (modifyD l i f) j = lookupD l j := by
  induction l with
  | nil => rfl
  | cons p t ih =>
    obtain ⟨k, v⟩ := p
    by_cases hk : k = i
    · subst hk
      simp [Ne.symm h, ih]
    · by_cases hkj : k = j
      · simp [hk, hkj, h]
      · simp [hk, hkj, ih]

theorem lookupD_updateD_self {α : Type} (l : List (Id × α)) (i : Id) (d : α) :
    lookupD (updateD l i d) i = (lookupD l i).map (fun _ => d) :=
  lookupD_modifyD_self l i _

theorem lookupD_updateD_ne {α : Type} (l : List (Id × α)) (i j : Id) (d : α)
    (h : j ≠ i) : lookupD (updateD l i d) j = lookupD l j :=
  lookupD_modifyD_ne l i j _ h

theorem lookupD_removeD_self {α : Type} (l : List (Id × α)) (i : Id) :
    lookupD (removeD l i) i = none := by
  induction l with
  | nil => rfl
  | cons p t ih =>
    obtain ⟨k, v⟩ := p
    by_cases hk : k = i
    · simp [hk, ih]
    · simp [hk, ih]

theorem lookupD_removeD_ne {α : Type} (l : List (Id × α)) (i j : Id)
    (h : j ≠ i) : lookupD (removeD l i) j = lookupD l j := by
  induction l with
  | nil => rfl
  | cons p t ih =>
    obtain ⟨k, v⟩ := p
    by_cases hk : k = i
    · subst hk
      simp [Ne.symm h, ih]
    · by_cases hkj : k = j
      · simp [hk, hkj, h]
      · simp [hk, hkj, ih]

theorem lookupD_mem {α : Type} (l : List (Id × α)) (i : Id) (d : α)
    (h : lookupD l i = some d) : (i, d) ∈ l := by
  induction l with
  | nil => simp at h
  | cons p t ih =>
    obtain ⟨k, v⟩ := p
    by_cases hk : k = i
    · subst hk
      simp at h
      subst h
      exact List.mem_cons_self _ _
    · simp [hk] at h
      exact List.mem_cons_of_mem _ (ih h)

theorem lookupD_filter_some {α : Type} {p : Id × α → Bool} {l : List (Id × α)}
    {i : Id} {d : α} (h : lookupD (l.filter p) i = some d) : p (i, d) = true := by
  induction l with
  | nil => simp [List.filter, lookupD] at h
  | cons q t ih =>
    obtain ⟨k, v⟩ := q
    by_cases hp : p (k, v) = true
    · simp only [List.filter_cons, hp, if_true] at h
      by_cases hk : k = i
      · subst hk
        simp at h
        subst h
        exact hp
      · simp [hk] at h
        exact ih h
    · rw [Bool.not_eq_true] at hp
      simp only [List.filter_cons, hp, Bool.false_eq_true, if_false] at h
      exact ih h

theorem lookupD_filter_of_true {α : Type} {p : Id × α → Bool} {l : List (Id × α)}
    {i : Id} {d : α} (h : lookupD l i = some d) (hp : p (i, d) = true) :
    lookupD (l.filter p) i = some d := by
  induction l with
  | nil => simp [lookupD] at h
  | cons q t ih =>
    obtain ⟨k, v⟩ := q
    by_cases hk : k = i
    · subst hk
      simp at h
      subst h
      simp [List.filter_cons, hp]
    · simp only [lookupD_cons, hk, if_false] at h
      by_cases hq : p (k, v) = true
      · simp [List.filter_cons, hq, hk, ih h]
      · rw [Bool.not_eq_true] at hq
        simp [List.filter_cons, hq, ih h]

theorem modifyD_modifyD {α : Type} (l : List (Id × α)) (i : Id) (f g : α → α) :
    modifyD (modifyD l i f) i g = modifyD l i (fun x => g (f x)) := by
  induction l with
  | nil => rfl
  | cons p t ih =>
    obtain ⟨k, v⟩ := p
    by_cases hk : k = i
    · simp [hk, ih]
    · simp [hk, ih]

theorem modifyD_id {α : Type} (l : List (Id × α)) (i : Id) (f : α → α)
    (hf : ∀ x, f x = x) : modifyD l i f = l := by
  induction l with
  | nil => rfl
  | cons p t ih =>
    obtain ⟨k, v⟩ := p
    by_cases hk : k = i
    · subst hk
      simp [hf, ih]
    · simp [hk, ih]

@[simp] theorem incReputation_questions (s : AppState) (x : Id) (d : Int) :
    (incReputation s x d).questions = s.questions := rfl

@[simp] theorem incReputation_answers (s : AppState) (x : Id) (d : Int) :
    (incReputation s x d).answers = s.answers := rfl

@[simp] theorem incReputation_comments (s : AppState) (x : Id) (d : Int) :
    (incReputation s x d).comments = s.comments := rfl

@[simp] theorem incReputation_votes (s : AppState) (x : Id) (d : Int) :
    (incReputation s x d).votes = s.votes := rfl

@[simp] theorem addTargetVotes_users (s : AppState) (tt : TargetType) (tid : Id) (d : Int) :
    (addTargetVotes s tt tid d).users = s.users := by cases tt <;> rfl

@[simp] theorem addTargetVotes_votes (s : AppState) (tt : TargetType) (tid : Id) (d : Int) :
    (addTargetVotes s tt tid d).votes = s.votes := by cases tt <;> rfl

@[simp] theorem addTargetVotes_comments (s : AppState) (tt : TargetType) (tid : Id) (d : Int) :
    (addTargetVotes s tt tid d).comments = s.comments := by cases tt <;> rfl

theorem targetOwner_addTargetVotes (s : AppState) (tt : TargetType) (tid : Id) (d : Int)
    (tt' : TargetType) (tid' : Id) :
    targetOwner (addTargetVotes s tt tid d) tt' tid' = targetOwner s tt' tid' := by
  cases tt with
  | question =>
    cases tt' with
    | question =>
      simp only [targetOwner, addTargetVotes]
      by_cases h : tid' = tid
      · subst h
        rw [lookupD_modifyD_self]
        cases lookupD s.questions tid' <;> rfl
      · rw [lookupD_modifyD_ne _ _ _ _ h]
    | answer => rfl
  | answer =>
    cases tt' with
    | question => rfl
    | answer =>
      simp only [targetOwner, addTargetVotes]
      by_cases h : tid' = tid
      · subst h
        rw [lookupD_modifyD_self]
        cases lookupD s.answers tid' <;> rfl
      · rw [lookupD_modifyD_ne _ _ _ _ h]

@[simp] theorem targetOwner_incReputation (s : AppState) (x : Id) (d : Int)
    (tt : TargetType) (tid : Id) :
    targetOwner (incReputation s x d) tt tid = targetOwner s tt tid := by
  cases tt <;> rfl

@[simp] theorem targetVotes_incReputation (s : AppState) (x : Id) (d : Int)
    (tt : TargetType) (tid : Id) :
    targetVotes (incReputation s x d) tt tid = targetVotes s tt tid := by
  cases tt <;> rfl

theorem targetVotes_addTargetVotes_self (s : AppState) (tt : TargetType) (tid : Id) (d : Int) :
    targetVotes (addTargetVotes s tt tid d) tt tid = (targetVotes s tt tid).map (· + d) := by
  cases tt with
  | question =>
    simp only [targetVotes, addTargetVotes]
    rw [lookupD_modifyD_self]
    cases lookupD s.questions tid <;> rfl
  | answer =>
    simp only [targetVotes, addTargetVotes]
    rw [lookupD_modifyD_self]
    cases lookupD s.answers tid <;> rfl

@[simp] theorem voteKeyMatches_mk (u : Id) (tt : TargetType) (tid : Id) (v : Int) :
    voteKeyMatches u tt tid ⟨u, tt, tid, v⟩ = true := by
  simp [voteKeyMatches]

theorem all_false_of_findVote_none {votes : List VoteDoc} {u : Id} {tt : TargetType}
    {tid : Id} (h : findVote votes u tt tid = none) :
    ∀ w ∈ votes, voteKeyMatches u tt tid w = false := by
  intro w hw
  have := List.find?_eq_none.mp h w hw
  exact Bool.not_eq_true _ |>.mp this

theorem findVote_append_one {votes : List VoteDoc} {u : Id} {tt : TargetType} {tid : Id}
    (h : findVote votes u tt tid = none) (w : VoteDoc) :
    findVote (votes ++ [w]) u tt tid =
      if voteKeyMatches u tt tid w then some w else none := by
  induction votes with
  | nil =>
    cases hw : voteKeyMatches u tt tid w <;> simp [findVote, List.find?, hw]
  | cons x t ih =>
    have hx : voteKeyMatches u tt tid x = false :=
      all_false_of_findVote_none h x (List.mem_cons_self _ _)
    have ht : findVote t u tt tid = none := by
      simp only [findVote, List.find?, hx] at h ⊢
      exact h
    simp only [findVote, List.cons_append, List.find?, hx] at ih ⊢
    exact ih ht

theorem eraseFirst_append_one {α : Type} {p : α → Bool} {l : List α}
    (h : ∀ x ∈ l, p x = false) {a : α} (ha : p a = true) :
    eraseFirst p (l ++ [a]) = l := by
  induction l with
  | nil => simp [eraseFirst, ha]
  | cons x t ih =>
    have hx : p x = false := h x (List.mem_cons_self _ _)
    simp only [List.cons_append, eraseFirst, hx, Bool.false_eq_true, if_false]
    exact congrArg (x :: ·) (ih (fun y hy => h y (List.mem_cons_of_mem _ hy)))

theorem repOf_incReputation (s : AppState) (x uid : Id) (d : Int) :
    repOf (incReputation s x d) uid =
      if uid = x then (repOf s uid).map (· + d) else repOf s uid := by
  by_cases h : uid = x
  · subst h
    simp only [repOf, incReputation, lookupD_modifyD_self, if_true]
    cases lookupD s.users uid <;> simp
  · simp [repOf, incReputation, lookupD_modifyD_ne _ _ _ _ h, h]

/-! ## Single-step and iteration lemmas for the dedicated vote routes -/

theorem upvoteQuestion_step (s : AppState) (u qid : Id) (q : QuestionDoc)
    (hq : lookupD s.questions qid = some q) (h : q.asker ≠ u) :
    upvoteQuestion s u qid = (.ok "Question upvoted successfully",
      { s with questions := updateD s.questions qid { q with votes := q.votes + 1 } }) := by
  simp [upvoteQuestion, hq, h]

theorem downvoteQuestion_step (s : AppState) (u qid : Id) (q : QuestionDoc)
    (hq : lookupD s.questions qid = some q) (h : q.asker ≠ u) :
    downvoteQuestion s u qid = (.ok "Question downvoted successfully",
      { s with questions := updateD s.questions qid { q with votes := q.votes - 1 } }) := by
  simp [downvoteQuestion, hq, h]

theorem upvoteAnswer_step (s : AppState) (u qid aid : Id) (a : AnswerDoc)
    (ha : lookupD s.answers aid = some a) (h : a.answerer ≠ u) :
    upvoteAnswer s u qid aid = (.ok "Answer upvoted successfully",
      { s with answers := updateD s.answers aid { a with votes := a.votes + 1 } }) := by
  simp [upvoteAnswer, ha, h]

theorem downvoteAnswer_step (s : AppState) (u qid aid : Id) (a : AnswerDoc)
    (ha : lookupD s.answers aid = some a) (h : a.answerer ≠ u) :
    downvoteAnswer s u qid aid = (.ok "Answer downvoted successfully",
      { s with answers := updateD s.answers aid { a with votes := a.votes - 1 } }) := by
  simp [downvoteAnswer, ha, h]

theorem upvoteQuestion_iter (s : AppState) (u qid : Id) (q : QuestionDoc)
    (hq : lookupD s.questions qid = some q) (h : q.asker ≠ u) (n : Nat) :
    lookupD ((fun st => (upvoteQuestion st u qid).2)^[n] s).questions qid =
      some { q with votes := q.votes + n } := by
  induction n with
  | zero => simpa using hq
  | succ n ih =>
    rw [Function.iterate_succ_apply']
    rw [upvoteQuestion_step _ u qid _ ih h]
    show lookupD (updateD _ qid _) qid = _
    rw [lookupD_updateD_self, ih]
    simp only [Option.map_some', Option.some.injEq, QuestionDoc.mk.injEq, true_and, and_true]
    push_cast
    ring

theorem downvoteQuestion_iter (s : AppState) (u qid : Id) (q : QuestionDoc)
    (hq : lookupD s.questions qid = some q) (h : q.asker ≠ u) (n : Nat) :
    lookupD ((fun st => (downvoteQuestion st u qid).2)^[n] s).questions qid =
      some { q with votes := q.votes - n } := by
  induction n with
  | zero => simpa using hq
  | succ n ih =>
    rw [Function.iterate_succ_apply']
    rw [downvoteQuestion_step _ u qid _ ih h]
    show lookupD (updateD _ qid _) qid = _
    rw [lookupD_updateD_self, ih]
    simp only [Option.map_some', Option.some.injEq, QuestionDoc.mk.injEq, true_and, and_true]
    push_cast
    ring

theorem upvoteAnswer_iter (s : AppState) (u qid aid : Id) (a : AnswerDoc)
    (ha : lookupD s.answers aid = some a) (h : a.answerer ≠ u) (n : Nat) :
    lookupD ((fun st => (upvoteAnswer st u qid aid).2)^[n] s).answers aid =
      some { a with votes := a.votes + n } := by
  induction n with
  | zero => simpa using ha
  | succ n ih =>
    rw [Function.iterate_succ_apply']
    rw [upvoteAnswer_step _ u qid aid _ ih h]
    show lookupD (updateD _ aid _) aid = _
    rw [lookupD_updateD_self, ih]
    simp only [Option.map_some', Option.some.injEq, AnswerDoc.mk.injEq, true_and, and_true]
    push_cast
    ring

theorem downvoteAnswer_iter (s : AppState) (u qid aid : Id) (a : AnswerDoc)
    (ha : lookupD s.answers aid = some a) (h : a.answerer ≠ u) (n : Nat) :
    lookupD ((fun st => (downvoteAnswer st u qid aid).2)^[n] s).answers aid =
      some { a with votes := a.votes - n } := by
  induction n with
  | zero => simpa using ha
  | succ n ih =>
    rw [Function.iterate_succ_apply']
    rw [downvoteAnswer_step _ u qid aid _ ih h]
    show lookupD (updateD _ aid _) aid = _
    rw [lookupD_updateD_self, ih]
    simp only [Option.map_some', Option.some.injEq, AnswerDoc.mk.injEq, true_and, and_true]
    push_cast
    ring

/-! ## Claim theorems -/

/-- C8: idempotent view counting.  For a question `q` and logged-in user `u`
with `u` not yet in `q.viewers`, `GET /api/questions/:id` adds `u` to
`viewers` and increments `views` by exactly 1; a further `GET` by the same
`u` leaves the state unchanged; a `GET` by a user already in `viewers`
leaves the state unchanged; an unauthenticated `GET` leaves the state
unchanged. -/
theorem question_view_counting (s : AppState) (u qid : Id) (q : QuestionDoc)
    (hq : lookupD s.questions qid = some q) :
    (q.viewers.contains u = false →
      (getQuestion s (some u) qid).1 = .ok "question" ∧
      lookupD (getQuestion s (some u) qid).2.questions qid =
        some { q with viewers := q.viewers ++ [u], views := q.views + 1 } ∧
      (getQuestion (getQuestion s (some u) qid).2 (some u) qid).2 =
        (getQuestion s (some u) qid).2) ∧
    (q.viewers.contains u = true → (getQuestion s (some u) qid).2 = s) ∧
    (getQuestion s none qid).2 = s := by
  refine ⟨fun hnv => ?_, fun hv => ?_, ?_⟩
  · have hnv' : u ∉ q.viewers := by simpa using hnv
    have h1 : getQuestion s (some u) qid =
        (.ok "question",
          { s with questions := (updateD s.questions qid
              { q with viewers := q.viewers ++ [u], views := q.views + 1 }) }) := by
      simp [getQuestion, hq, hnv']
    have hq' : lookupD (getQuestion s (some u) qid).2.questions qid =
        some { q with viewers := q.viewers ++ [u], views := q.views + 1 } := by
      simp [h1, lookupD_updateD_self, hq]
    refine ⟨by rw [h1], hq', ?_⟩
    have hmem' : u ∈ ({ q with viewers := q.viewers ++ [u], views := q.views + 1 } : QuestionDoc).viewers := by simp
    generalize hS : (getQuestion s (some u) qid).2 = s₁ at hq' ⊢
    simp [getQuestion, hq', hmem']
  · have hv' : u ∈ q.viewers := by simpa using hv
    simp [getQuestion, hq, hv']
  · simp [getQuestion, hq]

/-- C8 witness: in `exState`, user 5 is not among the viewers of
question 10; the first `GET` records the view. -/
theorem question_view_counting_witness :
    (lookupD exState.questions 10 = some exQuestion ∧
      exQuestion.viewers.contains 5 = false) ∧
    lookupD (getQuestion exState (some 5) 10).2.questions 10 =
      some { exQuestion with viewers := exQuestion.viewers ++ [5],
                             views := exQuestion.views + 1 } :=
  ⟨⟨by decide, by decide⟩,
    ((question_view_counting exState 5 10 exQuestion (by decide)).1 (by decide)).2.1⟩

/-- C10: the dedicated vote routes only move the target's `votes` counter by
±1 per call: the exact post-states show no Vote document is created, no
reputation changes and nothing else moves; a repeated call by a non-owner
moves the counter by a further ±1 without bound; the owner always gets 400
with no state change. -/
theorem dedicated_vote_routes (s : AppState) (u qid aid : Id) (q : QuestionDoc)
    (a : AnswerDoc) (hq : lookupD s.questions qid = some q)
    (ha : lookupD s.answers aid = some a) :
    (q.asker = u →
      upvoteQuestion s u qid = (.badRequest "You cannot vote on your own question", s) ∧
      downvoteQuestion s u qid = (.badRequest "You cannot vote on your own question", s)) ∧
    (a.answerer = u →
      upvoteAnswer s u qid aid = (.badRequest "You cannot vote on your own answer", s) ∧
      downvoteAnswer s u qid aid = (.badRequest "You cannot vote on your own answer", s)) ∧
    (q.asker ≠ u →
      upvoteQuestion s u qid = (.ok "Question upvoted successfully",
        { s with questions := updateD s.questions qid { q with votes := q.votes + 1 } }) ∧
      downvoteQuestion s u qid = (.ok "Question downvoted successfully",
        { s with questions := updateD s.questions qid { q with votes := q.votes - 1 } }) ∧
      (∀ n : Nat, lookupD ((fun st => (upvoteQuestion st u qid).2)^[n] s).questions qid =
        some { q with votes := q.votes + n }) ∧
      (∀ n : Nat, lookupD ((fun st => (downvoteQuestion st u qid).2)^[n] s).questions qid =
        some { q with votes := q.votes - n })) ∧
    (a.answerer ≠ u →
      upvoteAnswer s u qid aid = (.ok "Answer upvoted successfully",
        { s with answers := updateD s.answers aid { a with votes := a.votes + 1 } }) ∧
      downvoteAnswer s u qid aid = (.ok "Answer downvoted successfully",
        { s with answers := updateD s.answers aid { a with votes := a.votes - 1 } }) ∧
      (∀ n : Nat, lookupD ((fun st => (upvoteAnswer st u qid aid).2)^[n] s).answers aid =
        some { a with votes := a.votes + n }) ∧
      (∀ n : Nat, lookupD ((fun st => (downvoteAnswer st u qid aid).2)^[n] s).answers aid =
        some { a with votes := a.votes - n })) := by
  refine ⟨fun ho => ⟨?_, ?_⟩, fun ho => ⟨?_, ?_⟩, fun hn => ⟨?_, ?_, ?_, ?_⟩,
    fun hn => ⟨?_, ?_, ?_, ?_⟩⟩
  · simp [upvoteQuestion, hq, ho]
  · simp [downvoteQuestion, hq, ho]
  · simp [upvoteAnswer, ha, ho]
  · simp [downvoteAnswer, ha, ho]
  · exact upvoteQuestion_step s u qid q hq hn
  · exact downvoteQuestion_step s u qid q hq hn
  · exact upvoteQuestion_iter s u qid q hq hn
  · exact downvoteQuestion_iter s u qid q hq hn
  · exact upvoteAnswer_step s u qid aid a ha hn
  · exact downvoteAnswer_step s u qid aid a ha hn
  · exact upvoteAnswer_iter s u qid aid a ha hn
  · exact downvoteAnswer_iter s u qid aid a ha hn

/-- C10 witness: in `exState`, user 2 owns neither question 10 nor
answer 20; one upvote call moves only the question's counter, and the
owner (user 0) is rejected with 400. -/
theorem dedicated_vote_routes_witness :
    (lookupD exState.questions 10 = some exQuestion ∧
      lookupD exState.answers 20 = some exAnswer) ∧
    upvoteQuestion exState 2 10 = (.ok "Question upvoted successfully",
      { exState with questions := (updateD exState.questions 10
          { exQuestion with votes := exQuestion.votes + 1 }) }) :=
  ⟨⟨by decide, by decide⟩,
    ((dedicated_vote_routes exState 2 10 20 exQuestion exAnswer
      (by decide) (by decide)).2.2.1 (by decide)).1⟩

/-- C9: `POST /api/votes` validation.  An invalid `targetType` or an invalid
`value` yields 400 and a missing target yields 404, each with the state
unchanged: no Vote document, no counter and no reputation is touched. -/
theorem vote_validation_preserves (s : AppState) (u tid : Id) (tts : String) (v : Int) :
    (¬(tts = "question" ∨ tts = "answer") →
      postVote s u tts tid v = (.badRequest "Invalid target type", s)) ∧
    ((tts = "question" ∨ tts = "answer") → ¬(v = 1 ∨ v = -1) →
      postVote s u tts tid v = (.badRequest "Vote value must be 1 or -1", s)) ∧
    ((tts = "question" ∨ tts = "answer") → (v = 1 ∨ v = -1) →
      targetOwner s (ttOf tts) tid = none →
      postVote s u tts tid v = (.notFound (tts ++ " not found"), s)) := by
  refine ⟨fun h1 => ?_, fun h1 h2 => ?_, fun h1 h2 h3 => ?_⟩
  · simp only [postVote]
    rw [if_pos h1]
  · simp only [postVote]
    rw [if_neg (not_not_intro h1), if_pos h2]
  · simp only [postVote]
    rw [if_neg (not_not_intro h1), if_neg (not_not_intro h2)]
    simp [h3]

/-- C9 witness: a bogus target type, a bad value, and a missing question id
each bounce off `exState` unchanged. -/
theorem vote_validation_preserves_witness :
    postVote exState 1 "user" 10 1 = (.badRequest "Invalid target type", exState) ∧
    postVote exState 1 "question" 10 5 = (.badRequest "Vote value must be 1 or -1", exState) ∧
    postVote exState 1 "question" 99 1 = (.notFound "question not found", exState) :=
  ⟨(vote_validation_preserves exState 1 10 "user" 1).1 (by decide),
   (vote_validation_preserves exState 1 10 "question" 5).2.1 (by decide) (by decide),
   (vote_validation_preserves exState 1 99 "question" 1).2.2 (by decide) (by decide) (by decide)⟩

/-- C7 counterexample: user 2 has role admin and is not the author of
comment 30, yet the routes/comments.js handler answers 403 and deletes
nothing — contradicting the claim that an admin's delete succeeds. -/
theorem delete_comment_admin_rejected :
    (lookupD exState.users 2).map (·.role) = some Role.admin ∧
    (lookupD exState.comments 30).map (·.author) = some 1 ∧
    deleteCommentC exState 2 30 =
      (.forbidden "Not authorized to delete this comment", exState) := by
  decide

/-- C7 amended: the part_003 comments router deletes exactly when the
requester is the author or an admin; the routes/comments.js handler deletes
exactly when the requester is the author (admins are refused); every refusal
is a 403 that leaves the state unchanged. -/
theorem delete_comment_auth (s : AppState) (u cid : Id) (c : CommentDoc) (usr : UserDoc)
    (hc : lookupD s.comments cid = some c) (hu : lookupD s.users u = some usr) :
    (deleteCommentU s u cid =
      if c.author = u ∨ usr.role = Role.admin then
        (.ok "Comment deleted successfully", { s with comments := removeD s.comments cid })
      else (.forbidden "Not authorized to delete this comment", s)) ∧
    (deleteCommentC s u cid =
      if c.author = u then
        (.ok "Comment deleted successfully", { s with comments := removeD s.comments cid })
      else (.forbidden "Not authorized to delete this comment", s)) := by
  constructor
  · by_cases hca : c.author = u
    · simp [deleteCommentU, hc, hu, hca]
    · by_cases hr : usr.role = Role.admin
      · simp [deleteCommentU, hc, hu, hca, hr]
      · simp [deleteCommentU, hc, hu, hca, hr]
  · by_cases hca : c.author = u
    · simp [deleteCommentC, hc, hca]
    · simp [deleteCommentC, hc, hca]

/-- C7 witness: the admin (user 2) deleting comment 30 through the part_003
router succeeds. -/
theorem delete_comment_auth_witness :
    (lookupD exState.comments 30 = some exCommentOnAnswer ∧
      lookupD exState.users 2 = some uAdmin) ∧
    deleteCommentU exState 2 30 =
      if exCommentOnAnswer.author = 2 ∨ uAdmin.role = Role.admin then
        (.ok "Comment deleted successfully",
          { exState with comments := removeD exState.comments 30 })
      else (.forbidden "Not authorized to delete this comment", exState) :=
  ⟨⟨by decide, by decide⟩,
    (delete_comment_auth exState 2 30 exCommentOnAnswer uAdmin (by decide) (by decide)).1⟩

/-- Success-state characterization of routes/questions.js `DELETE /:id`. -/
theorem deleteQuestion_success (s : AppState) (u qid : Id)
    (hs : isSuccess (deleteQuestion s u qid).1) :
    (deleteQuestion s u qid).2 =
      { s with
        answers := s.answers.filter (fun p => decide (p.2.questionId ≠ qid)),
        comments := (s.comments.filter
          (fun p => decide (¬(p.2.targetType = TargetType.question ∧ p.2.targetId = qid)))),
        questions := removeD s.questions qid } := by
  unfold deleteQuestion at hs ⊢
  cases hq : lookupD s.questions qid with
  | none => simp [hq, isSuccess] at hs
  | some q =>
    cases hu : lookupD s.users u with
    | none => simp [hq, hu, isSuccess] at hs
    | some usr =>
      by_cases hg : q.asker ≠ u ∧ usr.role ≠ Role.admin
      · simp [hq, hu, hg, isSuccess] at hs
      · simp [hq, hu, hg]

/-- Success-state characterization of routes/questions.js
`DELETE /:id/answers/:answerId`. -/
theorem deleteAnswerQ_success (s : AppState) (u qid aid : Id)
    (hs : isSuccess (deleteAnswerQ s u qid aid).1) :
    (deleteAnswerQ s u qid aid).2 =
      { s with
        answers := removeD s.answers aid,
        comments := (s.comments.filter
          (fun p => decide (¬(p.2.targetType = TargetType.answer ∧ p.2.targetId = aid)))) } := by
  unfold deleteAnswerQ at hs ⊢
  cases ha : lookupD s.answers aid with
  | none => simp [ha, isSuccess] at hs
  | some a =>
    cases hu : lookupD s.users u with
    | none => simp [ha, hu, isSuccess] at hs
    | some usr =>
      by_cases hg : a.answerer ≠ u ∧ usr.role ≠ Role.admin
      · simp [ha, hu, hg, isSuccess] at hs
      · simp [ha, hu, hg]

/-- Success-state characterization of routes/answers.js `DELETE /:answerId`. -/
theorem deleteAnswerA_success (s : AppState) (u aid : Id)
    (hs : isSuccess (deleteAnswerA s u aid).1) :
    (deleteAnswerA s u aid).2 = { s with answers := removeD s.answers aid } := by
  unfold deleteAnswerA at hs ⊢
  cases ha : lookupD s.answers aid with
  | none => simp [ha, isSuccess] at hs
  | some a =>
    cases hu : lookupD s.users u with
    | none => simp [ha, hu, isSuccess] at hs
    | some usr =>
      by_cases hg : ¬(a.answerer = u) ∧ ¬(usr.role = Role.admin)
      · simp [ha, hu, hg, isSuccess] at hs
      · simp [ha, hu, hg]

/-- C3 counterexample: deleting question 10 (asked by user 0) succeeds and
removes its answer 20, but comment 30 — which targets that answer — survives,
contradicting the claim that comments on the question's answers are
cascaded. -/
theorem delete_question_orphans_comment :
    isSuccess (deleteQuestion exState 0 10).1 ∧
    lookupD (deleteQuestion exState 0 10).2.answers 20 = none ∧
    (lookupD exState.comments 30).map (·.targetType) = some TargetType.answer ∧
    (lookupD exState.comments 30).map (·.targetId) = some 20 ∧
    lookupD (deleteQuestion exState 0 10).2.comments 30 = some exCommentOnAnswer := by
  decide

/-- C3 amended: a successful `DELETE /api/questions/:id` removes every answer
of the question and every comment targeting the question itself, while every
comment not targeting the question (including comments on its answers) is
preserved; the delete-answer handler in routes/questions.js removes the
comments targeting the answer, while the one in routes/answers.js removes
only the answer and leaves all comments untouched. -/
theorem delete_cascade (s : AppState) (u qid aid : Id) :
    (isSuccess (deleteQuestion s u qid).1 →
      (∀ aid' a', lookupD (deleteQuestion s u qid).2.answers aid' = some a' →
        a'.questionId ≠ qid) ∧
      (∀ cid c, lookupD (deleteQuestion s u qid).2.comments cid = some c →
        ¬(c.targetType = TargetType.question ∧ c.targetId = qid)) ∧
      (∀ cid c, lookupD s.comments cid = some c →
        ¬(c.targetType = TargetType.question ∧ c.targetId = qid) →
        lookupD (deleteQuestion s u qid).2.comments cid = some c)) ∧
    (isSuccess (deleteAnswerQ s u qid aid).1 →
      (∀ cid c, lookupD (deleteAnswerQ s u qid aid).2.comments cid = some c →
        ¬(c.targetType = TargetType.answer ∧ c.targetId = aid)) ∧
      lookupD (deleteAnswerQ s u qid aid).2.answers aid = none) ∧
    (isSuccess (deleteAnswerA s u aid).1 →
      (deleteAnswerA s u aid).2.comments = s.comments ∧
      lookupD (deleteAnswerA s u aid).2.answers aid = none) := by
  refine ⟨fun hs => ?_, fun hs => ?_, fun hs => ?_⟩
  · rw [deleteQuestion_success s u qid hs]
    refine ⟨?_, ?_, ?_⟩
    · intro aid' a' h
      have hp := lookupD_filter_some h
      simpa using hp
    · intro cid c h
      have hp := lookupD_filter_some h
      simp at hp
      tauto
    · intro cid c hc hnc
      refine lookupD_filter_of_true hc ?_
      simp
      tauto
  · rw [deleteAnswerQ_success s u qid aid hs]
    refine ⟨?_, ?_⟩
    · intro cid c h
      have hp := lookupD_filter_some h
      simp at hp
      tauto
    · exact lookupD_removeD_self s.answers aid
  · rw [deleteAnswerA_success s u aid hs]
    exact ⟨rfl, lookupD_removeD_self s.answers aid⟩

/-- C3 witness: deleting question 10 as its asker succeeds, and the comment
that targets the question itself is gone. -/
theorem delete_cascade_witness :
    isSuccess (deleteQuestion exState 0 10).1 ∧
    (∀ cid c, lookupD (deleteQuestion exState 0 10).2.comments cid = some c →
      ¬(c.targetType = TargetType.question ∧ c.targetId = 10)) :=
  ⟨by decide, ((delete_cascade exState 0 10 20).1 (by decide)).2.1⟩

/-- C4 counterexample: accepting answer 20 through the routes/questions.js
accept handler succeeds, yet the answerer (user 1) keeps reputation 0 —
no +15 is applied by this handler. -/
theorem accept_answer_q_no_reputation :
    isSuccess (acceptAnswerQ exState 0 10 20).1 ∧
    (lookupD (acceptAnswerQ exState 0 10 20).2.answers 20).map (·.isAccepted) = some true ∧
    repOf (acceptAnswerQ exState 0 10 20).2 1 = some 0 ∧
    (acceptAnswerQ exState 0 10 20).2.users = exState.users := by
  decide

/-- C4 amended: only the routes/answers.js accept handler adjusts
reputation: it credits the accepted answer's answerer 15 and debits the
previously accepted answer's answerer 15 (when that answer existed), and it
touches no one else; the routes/questions.js accept handler changes no
user document at all. -/
theorem accept_answer_reputation (s : AppState) (u qid aid : Id) (a : AnswerDoc)
    (q : QuestionDoc) (ha : lookupD s.answers aid = some a)
    (hq : lookupD s.questions a.questionId = some q) :
    (isSuccess (acceptAnswerQ s u qid aid).1 →
      (acceptAnswerQ s u qid aid).2.users = s.users) ∧
    (isSuccess (acceptAnswerA s u aid).1 →
      ∀ uid, repOf (acceptAnswerA s u aid).2 uid =
        (repOf s uid).map (fun r =>
          r + (if (q.acceptedAnswer.bind
                  (fun pid => (lookupD s.answers pid).map (·.answerer))) = some uid
               then -15 else 0)
            + (if a.answerer = uid then 15 else 0))) := by
  constructor
  · intro hs
    unfold acceptAnswerQ at hs ⊢
    cases hq2 : lookupD s.questions qid with
    | none => simp [hq2, isSuccess] at hs
    | some q2 =>
      by_cases hask : q2.asker ≠ u
      · simp [hq2, hask, isSuccess] at hs
      · cases ha2 : lookupD s.answers aid with
        | none => simp [hq2, hask, ha2, isSuccess] at hs
        | some a2 =>
          by_cases hbq : a2.questionId ≠ qid
          · simp [hq2, hask, ha2, hbq, isSuccess] at hs
          · cases hacc : q2.acceptedAnswer with
            | none => simp [hq2, hask, ha2, hbq, hacc]
            | some oldId =>
              cases hold : lookupD s.answers oldId with
              | none => simp [hq2, hask, ha2, hbq, hacc, hold]
              | some oldA => simp [hq2, hask, ha2, hbq, hacc, hold]
  · intro hs uid
    unfold acceptAnswerA at hs ⊢
    simp only [ha, hq] at hs ⊢
    by_cases hask : q.asker ≠ u
    · simp [hask, isSuccess] at hs
    · rw [if_neg hask] at hs ⊢
      cases hacc : q.acceptedAnswer with
      | none =>
        by_cases haa : a.answerer = uid
        · simp [repOf, incReputation, lookupD_modifyD_self, haa]
          cases lookupD s.users uid <;> simp
        · simp only [repOf, incReputation]
          rw [lookupD_modifyD_ne _ _ _ _ (Ne.symm haa)]
          cases lookupD s.users uid <;> simp [haa]
      | some prevId =>
        cases hold : lookupD s.answers prevId with
        | none =>
          simp only [hold]
          by_cases haa : a.answerer = uid
          · simp only [repOf, incReputation, haa]
            rw [lookupD_modifyD_self]
            cases lookupD s.users uid <;> simp [hold]
          · simp only [repOf, incReputation]
            rw [lookupD_modifyD_ne _ _ _ _ (Ne.symm haa)]
            cases lookupD s.users uid <;> simp [hold, haa]
        | some prevA =>
          simp only [hold]
          by_cases haa : a.answerer = uid <;> by_cases hpa : prevA.answerer = uid
          · simp only [repOf, incReputation, haa, hpa]
            rw [lookupD_modifyD_self, lookupD_modifyD_self]
            cases lookupD s.users uid <;> simp [hold, hpa]
          · simp only [repOf, incReputation, haa]
            rw [lookupD_modifyD_self, lookupD_modifyD_ne _ _ _ _ (Ne.symm hpa)]
            cases lookupD s.users uid <;> simp [hold, hpa]
          · simp only [repOf, incReputation, hpa]
            rw [lookupD_modifyD_ne _ _ _ _ (Ne.symm haa), lookupD_modifyD_self]
            cases lookupD s.users uid <;> simp [hold, haa, hpa]
          · simp only [repOf, incReputation]
            rw [lookupD_modifyD_ne _ _ _ _ (Ne.symm haa),
              lookupD_modifyD_ne _ _ _ _ (Ne.symm hpa)]
            cases lookupD s.users uid <;> simp [hold, haa, hpa]

/-- C4 witness: accepting answer 20 (no previous accepted answer) through the
routes/answers.js handler credits answerer 1 with +15 reputation. -/
theorem accept_answer_reputation_witness :
    (lookupD exState.answers 20 = some exAnswer ∧
      lookupD exState.questions exAnswer.questionId = some exQuestion ∧
      isSuccess (acceptAnswerA exState 0 20).1) ∧
    repOf (acceptAnswerA exState 0 20).2 1 = some 15 := by
  refine ⟨⟨by decide, by decide, by decide⟩, ?_⟩
  have h := ((accept_answer_reputation exState 0 10 20 exAnswer exQuestion
    (by decide) (by decide)).2 (by decide)) 1
  simpa using h

/-- Core of both accept-answer handlers: starting from a consistent state,
after unaccepting the previously accepted answer (producing answer store `A`)
and writing `{ a with isAccepted := true }` under `aid`, the accepted answer
is flagged and every other answer of the question is unflagged. -/
theorem accept_answers_flags (s : AppState) (qid aid : Id) (q : QuestionDoc) (a : AnswerDoc)
    (A : List (Id × AnswerDoc))
    (hq : lookupD s.questions qid = some q) (ha : lookupD s.answers aid = some a)
    (hc : accConsistent s qid)
    (hA : A = (match q.acceptedAnswer with
      | some oldId =>
        match lookupD s.answers oldId with
        | some oldA => updateD s.answers oldId { oldA with isAccepted := false }
        | none => s.answers
      | none => s.answers)) :
    lookupD (updateD A aid { a with isAccepted := true }) aid =
      some { a with isAccepted := true } ∧
    ∀ aid' a', aid' ≠ aid →
      lookupD (updateD A aid { a with isAccepted := true }) aid' = some a' →
      a'.questionId = qid → a'.isAccepted = false := by
  constructor
  · have hsome : ∃ x, lookupD A aid = some x := by
      rw [hA]
      split
      · rename_i oldId hacc
        split
        · rename_i oldA hold
          by_cases he : aid = oldId
          · subst he
            refine ⟨{ oldA with isAccepted := false }, ?_⟩
            rw [lookupD_updateD_self, hold]
            rfl
          · refine ⟨a, ?_⟩
            rw [lookupD_updateD_ne _ _ _ _ he]
            exact ha
        · exact ⟨a, ha⟩
      · exact ⟨a, ha⟩
    obtain ⟨x, hx⟩ := hsome
    rw [lookupD_updateD_self, hx]
    rfl
  · intro aid' a' hne hlook hqid'
    rw [lookupD_updateD_ne _ _ _ _ hne, hA] at hlook
    split at hlook
    · rename_i oldId hacc
      split at hlook
      · rename_i oldA hold
        by_cases he : aid' = oldId
        · subst he
          rw [lookupD_updateD_self, hold] at hlook
          have ha' : a' = { oldA with isAccepted := false } := by
            simpa using hlook.symm
          rw [ha']
        · rw [lookupD_updateD_ne _ _ _ _ he] at hlook
          have hiff := hc (qid, q) (lookupD_mem _ _ _ hq) rfl (aid', a')
            (lookupD_mem _ _ _ hlook) hqid'
          rw [hacc] at hiff
          cases hb : a'.isAccepted
          · rfl
          · have hoi : oldId = aid' := by simpa using hiff.mp hb
            exact absurd hoi.symm he
      · rename_i hold
        have hiff := hc (qid, q) (lookupD_mem _ _ _ hq) rfl (aid', a')
          (lookupD_mem _ _ _ hlook) hqid'
        rw [hacc] at hiff
        cases hb : a'.isAccepted
        · rfl
        · have hoi : oldId = aid' := by simpa using hiff.mp hb
          subst hoi
          rw [hold] at hlook
          exact absurd hlook (by simp)
    · rename_i hacc
      have hiff := hc (qid, q) (lookupD_mem _ _ _ hq) rfl (aid', a')
        (lookupD_mem _ _ _ hlook) hqid'
      rw [hacc] at hiff
      cases hb : a'.isAccepted
      · rfl
      · exact absurd (hiff.mp hb) (by simp)

/-- Success-state characterization of the routes/questions.js accept
handler. -/
theorem acceptAnswerQ_success (s : AppState) (u qid aid : Id) (q2 : QuestionDoc)
    (a2 : AnswerDoc) (hq2 : lookupD s.questions qid = some q2)
    (ha2 : lookupD s.answers aid = some a2) (hask : ¬(q2.asker ≠ u))
    (hbq : ¬(a2.questionId ≠ qid)) :
    acceptAnswerQ s u qid aid = (.ok "Answer accepted successfully",
      { s with
        answers := (updateD (match q2.acceptedAnswer with
          | some oldId =>
            match lookupD s.answers oldId with
            | some oldA => updateD s.answers oldId { oldA with isAccepted := false }
            | none => s.answers
          | none => s.answers) aid { a2 with isAccepted := true }),
        questions := updateD s.questions qid { q2 with acceptedAnswer := some aid } }) := by
  simp only [acceptAnswerQ, hq2, ha2]
  rw [if_neg hask, if_neg hbq]
  split
  · split
    · rfl
    · rfl
  · rfl

/-- Success-state characterization of the routes/answers.js accept
handler. -/
theorem acceptAnswerA_success (s : AppState) (u aid : Id) (a : AnswerDoc)
    (q : QuestionDoc) (ha : lookupD s.answers aid = some a)
    (hq : lookupD s.questions a.questionId = some q) (hask : ¬(q.asker ≠ u)) :
    acceptAnswerA s u aid = (.ok "answer accepted",
      incReputation
        { s with
          answers := (updateD (match q.acceptedAnswer with
            | some prevId =>
              match lookupD s.answers prevId with
              | some prevA => updateD s.answers prevId { prevA with isAccepted := false }
              | none => s.answers
            | none => s.answers) aid { a with isAccepted := true }),
          questions := updateD s.questions a.questionId { q with acceptedAnswer := some aid },
          users := (match q.acceptedAnswer with
            | some prevId =>
              match lookupD s.answers prevId with
              | some prevA => modifyD s.users prevA.answerer
                  (fun x => { x with reputation := x.reputation + (-15) })
              | none => s.users
            | none => s.users) }
        a.answerer 15) := by
  simp only [acceptAnswerA, ha, hq]
  rw [if_neg hask]
  split
  · split
    · rfl
    · rfl
  · rfl

/-- C1: accept-answer consistency.  From a state in which `acceptedAnswer`
flags are consistent for question `qid`, any successful run of either accept
handler leaves `acceptedAnswer` pointing at the newly accepted answer, that
answer flagged `isAccepted = true`, and every other answer of the question
flagged `false`. -/
theorem accept_answer_consistency (s : AppState) (u qid aid : Id)
    (hc : accConsistent s qid) :
    (isSuccess (acceptAnswerQ s u qid aid).1 →
      (∃ q', lookupD (acceptAnswerQ s u qid aid).2.questions qid = some q' ∧
        q'.acceptedAnswer = some aid) ∧
      (∃ a', lookupD (acceptAnswerQ s u qid aid).2.answers aid = some a' ∧
        a'.isAccepted = true ∧ a'.questionId = qid) ∧
      (∀ aid' a', aid' ≠ aid →
        lookupD (acceptAnswerQ s u qid aid).2.answers aid' = some a' →
        a'.questionId = qid → a'.isAccepted = false)) ∧
    ((∃ a, lookupD s.answers aid = some a ∧ a.questionId = qid) →
      isSuccess (acceptAnswerA s u aid).1 →
      (∃ q', lookupD (acceptAnswerA s u aid).2.questions qid = some q' ∧
        q'.acceptedAnswer = some aid) ∧
      (∃ a', lookupD (acceptAnswerA s u aid).2.answers aid = some a' ∧
        a'.isAccepted = true ∧ a'.questionId = qid) ∧
      (∀ aid' a', aid' ≠ aid →
        lookupD (acceptAnswerA s u aid).2.answers aid' = some a' →
        a'.questionId = qid → a'.isAccepted = false)) := by
  constructor
  · intro hs
    cases hq2 : lookupD s.questions qid with
    | none =>
      unfold acceptAnswerQ at hs
      simp [hq2, isSuccess] at hs
    | some q2 =>
      by_cases hask : q2.asker ≠ u
      · unfold acceptAnswerQ at hs
        simp [hq2, hask, isSuccess] at hs
      · cases ha2 : lookupD s.answers aid with
        | none =>
          unfold acceptAnswerQ at hs
          simp [hq2, hask, ha2, isSuccess] at hs
        | some a2 =>
          by_cases hbq : a2.questionId ≠ qid
          · unfold acceptAnswerQ at hs
            simp [hq2, hask, ha2, hbq, isSuccess] at hs
          · have haq : a2.questionId = qid := not_not.mp hbq
            rw [acceptAnswerQ_success s u qid aid q2 a2 hq2 ha2 hask hbq]
            obtain ⟨hacc1, hacc2⟩ :=
              accept_answers_flags s qid aid q2 a2 _ hq2 ha2 hc rfl
            refine ⟨⟨{ q2 with acceptedAnswer := some aid }, ?_, rfl⟩,
              ⟨{ a2 with isAccepted := true }, hacc1, rfl, haq⟩,
              fun aid' a' hne hl hqid' => hacc2 aid' a' hne hl hqid'⟩
            rw [lookupD_updateD_self, hq2]
            rfl
  · intro hpre hs
    obtain ⟨a, ha, haq⟩ := hpre
    cases hq : lookupD s.questions a.questionId with
    | none =>
      unfold acceptAnswerA at hs
      simp [ha, hq, isSuccess] at hs
    | some q =>
      by_cases hask : q.asker ≠ u
      · unfold acceptAnswerA at hs
        simp [ha, hq, hask, isSuccess] at hs
      · rw [acceptAnswerA_success s u aid a q ha hq hask]
        rw [haq] at hq
        obtain ⟨hacc1, hacc2⟩ :=
          accept_answers_flags s qid aid q a _ hq ha hc rfl
        refine ⟨⟨{ q with acceptedAnswer := some aid }, ?_, rfl⟩,
          ⟨{ a with isAccepted := true }, hacc1, rfl, haq⟩,
          fun aid' a' hne hl hqid' => hacc2 aid' a' hne hl hqid'⟩
        rw [haq]
        show lookupD (updateD s.questions qid { q with acceptedAnswer := some aid }) qid = _
        rw [lookupD_updateD_self, hq]
        rfl

/-- C1 witness: `exState` is consistent for question 10, and accepting
answer 20 through the routes/questions.js handler points `acceptedAnswer`
at it. -/
theorem accept_answer_consistency_witness :
    (accConsistent exState 10 ∧ isSuccess (acceptAnswerQ exState 0 10 20).1) ∧
    (∃ q', lookupD (acceptAnswerQ exState 0 10 20).2.questions 10 = some q' ∧
      q'.acceptedAnswer = some 20) :=
  ⟨⟨by decide, by decide⟩,
    ((accept_answer_consistency exState 0 10 20 (by decide)).1 (by decide)).1⟩

theorem eraseFirst_sublist {α : Type} (p : α → Bool) (l : List α) :
    (eraseFirst p l).Sublist l := by
  induction l with
  | nil => simp [eraseFirst]
  | cons x t ih =>
    by_cases hp : p x = true
    · simp only [eraseFirst, hp, if_true]
      exact List.sublist_cons_self x t
    · simp only [eraseFirst, hp, Bool.false_eq_true, if_false]
      exact ih.cons₂ x

theorem mem_updateFirst {α : Type} {p : α → Bool} {f : α → α} {y : α} {l : List α}
    (hy : y ∈ updateFirst p f l) : y ∈ l ∨ ∃ z ∈ l, y = f z := by
  induction l with
  | nil => simp [updateFirst] at hy
  | cons x t ih =>
    by_cases hp : p x = true
    · simp only [updateFirst, hp, if_true, List.mem_cons] at hy
      rcases hy with rfl | hyt
      · exact Or.inr ⟨x, List.mem_cons_self _ _, rfl⟩
      · exact Or.inl (List.mem_cons_of_mem _ hyt)
    · simp only [updateFirst, hp, Bool.false_eq_true, if_false, List.mem_cons] at hy
      rcases hy with rfl | hyt
      · exact Or.inl (List.mem_cons_self _ _)
      · rcases ih hyt with h1 | ⟨z, hz, rfl⟩
        · exact Or.inl (List.mem_cons_of_mem _ h1)
        · exact Or.inr ⟨z, List.mem_cons_of_mem _ hz, rfl⟩

theorem pairwise_updateFirst {α : Type} {R : α → α → Prop} {p : α → Bool} {f : α → α}
    {l : List α} (hf1 : ∀ x y, R x y → R x (f y)) (hf2 : ∀ x y, R x y → R (f x) y)
    (h : l.Pairwise R) : (updateFirst p f l).Pairwise R := by
  induction l with
  | nil => exact h
  | cons x t ih =>
    rcases List.pairwise_cons.mp h with ⟨hx, ht⟩
    by_cases hp : p x = true
    · simp only [updateFirst, hp, if_true]
      exact List.pairwise_cons.mpr ⟨fun y hy => hf2 x y (hx y hy), ht⟩
    · simp only [updateFirst, hp, Bool.false_eq_true, if_false]
      refine List.pairwise_cons.mpr ⟨?_, ih ht⟩
      intro y hy
      rcases mem_updateFirst hy with hyt | ⟨z, hz, rfl⟩
      · exact hx y hyt
      · exact hf1 x z (hx z hz)

/-- C6: the Vote-store invariant "at most one Vote per
`(user, targetType, targetId)`" is preserved by every `POST /api/votes`
request under sequential execution: the handler updates or deletes the
existing vote for the key, and appends a fresh vote only when `findOne`
returned nothing. -/
theorem vote_uniqueness_preserved (s : AppState) (u tid : Id) (tts : String) (v : Int)
    (hun : voteUnique s.votes) :
    voteUnique (postVote s u tts tid v).2.votes := by
  simp only [postVote]
  split
  · exact hun
  split
  · exact hun
  split
  · exact hun
  rename_i h1 h2 ownerId howner
  split
  · rename_i w hw
    split
    · simp only [incReputation_votes, addTargetVotes_votes]
      exact List.Pairwise.sublist (eraseFirst_sublist _ _) hun
    · simp only [incReputation_votes, addTargetVotes_votes]
      exact pairwise_updateFirst (fun x y h => h) (fun x y h => h) hun
  · rename_i hnone
    simp only [incReputation_votes, addTargetVotes_votes]
    refine List.pairwise_append.mpr ⟨hun, List.pairwise_singleton _ _, ?_⟩
    intro x hx y hy
    simp only [List.mem_singleton] at hy
    subst hy
    have hfalse := all_false_of_findVote_none hnone x hx
    simp only [voteKeyMatches, decide_eq_false_iff_not] at hfalse
    exact hfalse

/-- C6 witness: the empty Vote store of `exState` is unique per key, and a
first vote on question 10 preserves the invariant. -/
theorem vote_uniqueness_preserved_witness :
    voteUnique exState.votes ∧ voteUnique (postVote exState 1 "question" 10 1).2.votes :=
  ⟨by decide, vote_uniqueness_preserved exState 1 10 "question" 1 (by decide)⟩

@[simp] theorem targetVotes_setVotes (s : AppState) (X : List VoteDoc) (tt : TargetType)
    (tid : Id) : targetVotes { s with votes := X } tt tid = targetVotes s tt tid := by
  cases tt <;> rfl

@[simp] theorem targetOwner_setVotes (s : AppState) (X : List VoteDoc) (tt : TargetType)
    (tid : Id) : targetOwner { s with votes := X } tt tid = targetOwner s tt tid := by
  cases tt <;> rfl

@[simp] theorem repOf_addTargetVotes (s : AppState) (tt : TargetType) (tid : Id) (d : Int)
    (uid : Id) : repOf (addTargetVotes s tt tid d) uid = repOf s uid := by
  cases tt <;> rfl

theorem targetVotes_isSome (s : AppState) (tt : TargetType) (tid o : Id)
    (h : targetOwner s tt tid = some o) : ∃ tv, targetVotes s tt tid = some tv := by
  cases tt with
  | question =>
    simp only [targetOwner] at h
    cases hq : lookupD s.questions tid with
    | none => rw [hq] at h; simp at h
    | some q0 => exact ⟨q0.votes, by simp [targetVotes, hq]⟩
  | answer =>
    simp only [targetOwner] at h
    cases ha : lookupD s.answers tid with
    | none => rw [ha] at h; simp at h
    | some a0 => exact ⟨a0.votes, by simp [targetVotes, ha]⟩

/-- C5: in every successful branch of `POST /api/votes` the handler applies
one and the same delta to the target's `votes` counter and to the target
owner's reputation: +v for a created vote, v − old for a changed vote and
−v for a removed vote. -/
theorem vote_delta_coupling (s : AppState) (u tid ownerId : Id) (tts : String) (v : Int)
    (usr : UserDoc)
    (howner : targetOwner s (ttOf tts) tid = some ownerId)
    (husr : lookupD s.users ownerId = some usr)
    (hs : isSuccess (postVote s u tts tid v).1) :
    ∃ tv tv', targetVotes s (ttOf tts) tid = some tv ∧
      targetVotes (postVote s u tts tid v).2 (ttOf tts) tid = some tv' ∧
      repOf (postVote s u tts tid v).2 ownerId = some (usr.reputation + (tv' - tv)) ∧
      tv' - tv = (match findVote s.votes u (ttOf tts) tid with
        | none => v
        | some w => if w.value = v then -v else v - w.value) := by
  by_cases h1 : ¬(tts = "question" ∨ tts = "answer")
  · have hbad : (postVote s u tts tid v).1 = .badRequest "Invalid target type" := by
      simp only [postVote]
      rw [if_pos h1]
    rw [hbad] at hs
    simp [isSuccess] at hs
  by_cases h2 : ¬(v = 1 ∨ v = -1)
  · have hbad : (postVote s u tts tid v).1 = .badRequest "Vote value must be 1 or -1" := by
      simp only [postVote]
      rw [if_neg h1, if_pos h2]
    rw [hbad] at hs
    simp [isSuccess] at hs
  obtain ⟨tv, htv⟩ := targetVotes_isSome s (ttOf tts) tid ownerId howner
  have hred : postVote s u tts tid v =
      (match findVote s.votes u (ttOf tts) tid with
       | some w =>
         if w.value = v then
           (.ok "Vote removed",
             incReputation (addTargetVotes
               { s with votes := eraseFirst (voteKeyMatches u (ttOf tts) tid) s.votes }
               (ttOf tts) tid (-v)) ownerId (-v))
         else
           (.ok "Vote updated",
             incReputation (addTargetVotes
               { s with votes := (updateFirst (voteKeyMatches u (ttOf tts) tid)
                   (fun w => { w with value := v }) s.votes) }
               (ttOf tts) tid (v - w.value)) ownerId (v - w.value))
       | none =>
         (.created "Vote recorded",
           incReputation (addTargetVotes
             { s with votes := s.votes ++ [⟨u, ttOf tts, tid, v⟩] }
             (ttOf tts) tid v) ownerId v)) := by
    simp only [postVote]
    rw [if_neg h1, if_neg h2, howner]
  cases hfind : findVote s.votes u (ttOf tts) tid with
  | none =>
    simp only [hfind] at hred
    refine ⟨tv, tv + v, htv, ?_, ?_, ?_⟩
    · rw [hred]
      show targetVotes (incReputation _ _ _) _ _ = _
      rw [targetVotes_incReputation, targetVotes_addTargetVotes_self,
        targetVotes_setVotes, htv]
      rfl
    · rw [hred]
      show repOf (incReputation _ _ _) _ = _
      rw [repOf_incReputation, if_pos rfl, repOf_addTargetVotes]
      have : repOf { s with votes := s.votes ++ [(⟨u, ttOf tts, tid, v⟩ : VoteDoc)] } ownerId =
          some usr.reputation := by
        simp [repOf, husr]
      rw [this]
      simp only [Option.map_some', Option.some.injEq]
      ring
    · simp only [hfind]
      ring
  | some w =>
    by_cases hval : w.value = v
    · simp only [hfind] at hred
      rw [if_pos hval] at hred
      refine ⟨tv, tv + (-v), htv, ?_, ?_, ?_⟩
      · rw [hred]
        show targetVotes (incReputation _ _ _) _ _ = _
        rw [targetVotes_incReputation, targetVotes_addTargetVotes_self,
          targetVotes_setVotes, htv]
        rfl
      · rw [hred]
        show repOf (incReputation _ _ _) _ = _
        rw [repOf_incReputation, if_pos rfl, repOf_addTargetVotes]
        have : repOf { s with votes := eraseFirst (voteKeyMatches u (ttOf tts) tid) s.votes }
            ownerId = some usr.reputation := by
          simp [repOf, husr]
        rw [this]
        simp only [Option.map_some', Option.some.injEq]
        ring
      · simp only [hfind, hval, if_true]
        ring
    · simp only [hfind] at hred
      rw [if_neg hval] at hred
      refine ⟨tv, tv + (v - w.value), htv, ?_, ?_, ?_⟩
      · rw [hred]
        show targetVotes (incReputation _ _ _) _ _ = _
        rw [targetVotes_incReputation, targetVotes_addTargetVotes_self,
          targetVotes_setVotes, htv]
        rfl
      · rw [hred]
        show repOf (incReputation _ _ _) _ = _
        rw [repOf_incReputation, if_pos rfl, repOf_addTargetVotes]
        have : repOf { s with votes := (updateFirst (voteKeyMatches u (ttOf tts) tid)
            (fun w => { w with value := v }) s.votes) } ownerId = some usr.reputation := by
          simp [repOf, husr]
        rw [this]
        simp only [Option.map_some', Option.some.injEq]
        ring
      · simp only [hfind, hval, if_false]
        ring

/-- C5 witness: a fresh upvote on question 10 moves the counter and the
asker's reputation by the same +1. -/
theorem vote_delta_coupling_witness :
    (targetOwner exState (ttOf "question") 10 = some 0 ∧
      lookupD exState.users 0 = some uAsker ∧
      isSuccess (postVote exState 1 "question" 10 1).1) ∧
    (∃ tv tv', targetVotes exState (ttOf "question") 10 = some tv ∧
      targetVotes (postVote exState 1 "question" 10 1).2 (ttOf "question") 10 = some tv' ∧
      repOf (postVote exState 1 "question" 10 1).2 0 = some (uAsker.reputation + (tv' - tv)) ∧
      tv' - tv = (match findVote exState.votes 1 (ttOf "question") 10 with
        | none => (1 : Int)
        | some w => if w.value = 1 then -1 else 1 - w.value)) :=
  ⟨⟨by decide, by decide, by decide⟩,
    vote_delta_coupling exState 1 10 0 "question" 1 uAsker (by decide) (by decide) (by decide)⟩


theorem modifyD_add_cancel_user (l : List (Id × UserDoc)) (i : Id) (d : Int) :
    modifyD (modifyD l i (fun x => { x with reputation := x.reputation + d })) i
      (fun x => { x with reputation := x.reputation + -d }) = l := by
  rw [modifyD_modifyD]
  apply modifyD_id
  intro x
  cases x
  simp

theorem modifyD_add_cancel_question (l : List (Id × QuestionDoc)) (i : Id) (d : Int) :
    modifyD (modifyD l i (fun q => { q with votes := q.votes + d })) i
      (fun q => { q with votes := q.votes + -d }) = l := by
  rw [modifyD_modifyD]
  apply modifyD_id
  intro x
  cases x
  simp

theorem modifyD_add_cancel_answer (l : List (Id × AnswerDoc)) (i : Id) (d : Int) :
    modifyD (modifyD l i (fun a => { a with votes := a.votes + d })) i
      (fun a => { a with votes := a.votes + -d }) = l := by
  rw [modifyD_modifyD]
  apply modifyD_id
  intro x
  cases x
  simp

/-- Toggling a question vote off restores the exact pre-vote state. -/
theorem toggle_state_cancel_q (s : AppState) (u tid o : Id) (v : Int) :
    incReputation (addTargetVotes
      { (incReputation (addTargetVotes
          { s with votes := s.votes ++ [⟨u, TargetType.question, tid, v⟩] }
          TargetType.question tid v) o v) with votes := s.votes }
      TargetType.question tid (-v)) o (-v) = s := by
  cases s with
  | mk us qs ans cs vs =>
    simp only [incReputation, addTargetVotes, AppState.mk.injEq, and_true, true_and]
    exact ⟨modifyD_add_cancel_user _ o v, modifyD_add_cancel_question _ tid v⟩

/-- Toggling an answer vote off restores the exact pre-vote state. -/
theorem toggle_state_cancel_a (s : AppState) (u tid o : Id) (v : Int) :
    incReputation (addTargetVotes
      { (incReputation (addTargetVotes
          { s with votes := s.votes ++ [⟨u, TargetType.answer, tid, v⟩] }
          TargetType.answer tid v) o v) with votes := s.votes }
      TargetType.answer tid (-v)) o (-v) = s := by
  cases s with
  | mk us qs ans cs vs =>
    simp only [incReputation, addTargetVotes, AppState.mk.injEq, and_true, true_and]
    exact ⟨modifyD_add_cancel_user _ o v, modifyD_add_cancel_answer _ tid v⟩

/-- C2 counterexample: with no prior vote, issuing the same vote request
twice does not leave the state of one request — the second request removes
the vote the first created (a toggle, not idempotence). -/
theorem vote_twice_not_idempotent :
    (postVote (postVote exState 1 "question" 10 1).2 1 "question" 10 1).2.votes ≠
      (postVote exState 1 "question" 10 1).2.votes ∧
    (postVote (postVote exState 1 "question" 10 1).2 1 "question" 10 1).2 ≠
      (postVote exState 1 "question" 10 1).2 := by
  decide

/-- C2 amended: repeated identical vote requests toggle rather than being
idempotent: starting from a state with no vote by `u` on the target, issuing
the same valid request twice returns the Vote store, the target's counter
and the owner's reputation exactly to their initial state (the first request
answers 201, the second 200 "Vote removed"). -/
theorem vote_toggle_cancels (s : AppState) (u tid o : Id) (tts : String) (v : Int)
    (h1 : tts = "question" ∨ tts = "answer") (h2 : v = 1 ∨ v = -1)
    (hnone : findVote s.votes u (ttOf tts) tid = none)
    (ho : targetOwner s (ttOf tts) tid = some o) :
    (postVote s u tts tid v).1 = .created "Vote recorded" ∧
    (postVote (postVote s u tts tid v).2 u tts tid v).1 = .ok "Vote removed" ∧
    (postVote (postVote s u tts tid v).2 u tts tid v).2 = s := by
  rcases h1 with rfl | rfl
  · have htt : ttOf "question" = TargetType.question := by decide
    rw [htt] at hnone ho
    have h2x : ¬¬(v = 1 ∨ v = -1) := not_not_intro h2
    have hfirst : postVote s u "question" tid v =
        (.created "Vote recorded", (incReputation (addTargetVotes { s with votes := s.votes ++ [(⟨u, TargetType.question, tid, v⟩ : VoteDoc)] } TargetType.question tid v) o v)) := by
      simp only [postVote, htt, ho, hnone, h2x, true_or, not_true, if_false, eq_self_iff_true,
        if_true]
    have hOwn : targetOwner ((incReputation (addTargetVotes { s with votes := s.votes ++ [(⟨u, TargetType.question, tid, v⟩ : VoteDoc)] } TargetType.question tid v) o v)) TargetType.question tid = some o := by
      rw [targetOwner_incReputation, targetOwner_addTargetVotes, targetOwner_setVotes, ho]
    have hFindS1 : findVote ((incReputation (addTargetVotes { s with votes := s.votes ++ [(⟨u, TargetType.question, tid, v⟩ : VoteDoc)] } TargetType.question tid v) o v)).votes u TargetType.question tid =
        some (⟨u, TargetType.question, tid, v⟩ : VoteDoc) := by
      show findVote (s.votes ++ [(⟨u, TargetType.question, tid, v⟩ : VoteDoc)]) u TargetType.question tid = _
      rw [findVote_append_one hnone]
      simp
    have hErase : eraseFirst (voteKeyMatches u TargetType.question tid) ((incReputation (addTargetVotes { s with votes := s.votes ++ [(⟨u, TargetType.question, tid, v⟩ : VoteDoc)] } TargetType.question tid v) o v)).votes = s.votes := by
      show eraseFirst _ (s.votes ++ [(⟨u, TargetType.question, tid, v⟩ : VoteDoc)]) = s.votes
      exact eraseFirst_append_one (all_false_of_findVote_none hnone) (by simp)
    have hsecond : postVote ((incReputation (addTargetVotes { s with votes := s.votes ++ [(⟨u, TargetType.question, tid, v⟩ : VoteDoc)] } TargetType.question tid v) o v)) u "question" tid v = (.ok "Vote removed", s) := by
      simp only [postVote, htt, hOwn, hFindS1, h2x, true_or, not_true, if_false,
        eq_self_iff_true, if_true]
      rw [hErase]
      exact congrArg (Prod.mk (HResult.ok "Vote removed")) (toggle_state_cancel_q s u tid o v)
    refine ⟨by rw [hfirst], ?_, ?_⟩
    · simp only [hfirst]
      rw [hsecond]
    · simp only [hfirst]
      rw [hsecond]
  · have htt : ttOf "answer" = TargetType.answer := by decide
    rw [htt] at hnone ho
    have h2x : ¬¬(v = 1 ∨ v = -1) := not_not_intro h2
    have hfirst : postVote s u "answer" tid v =
        (.created "Vote recorded", (incReputation (addTargetVotes { s with votes := s.votes ++ [(⟨u, TargetType.answer, tid, v⟩ : VoteDoc)] } TargetType.answer tid v) o v)) := by
      simp only [postVote, htt, ho, hnone, h2x, or_true, not_true, if_false, eq_self_iff_true,
        if_true]
    have hOwn : targetOwner ((incReputation (addTargetVotes { s with votes := s.votes ++ [(⟨u, TargetType.answer, tid, v⟩ : VoteDoc)] } TargetType.answer tid v) o v)) TargetType.answer tid = some o := by
      rw [targetOwner_incReputation, targetOwner_addTargetVotes, targetOwner_setVotes, ho]
    have hFindS1 : findVote ((incReputation (addTargetVotes { s with votes := s.votes ++ [(⟨u, TargetType.answer, tid, v⟩ : VoteDoc)] } TargetType.answer tid v) o v)).votes u TargetType.answer tid =
        some (⟨u, TargetType.answer, tid, v⟩ : VoteDoc) := by
      show findVote (s.votes ++ [(⟨u, TargetType.answer, tid, v⟩ : VoteDoc)]) u TargetType.answer tid = _
      rw [findVote_append_one hnone]
      simp
    have hErase : eraseFirst (voteKeyMatches u TargetType.answer tid) ((incReputation (addTargetVotes { s with votes := s.votes ++ [(⟨u, TargetType.answer, tid, v⟩ : VoteDoc)] } TargetType.answer tid v) o v)).votes = s.votes := by
      show eraseFirst _ (s.votes ++ [(⟨u, TargetType.answer, tid, v⟩ : VoteDoc)]) = s.votes
      exact eraseFirst_append_one (all_false_of_findVote_none hnone) (by simp)
    have hsecond : postVote ((incReputation (addTargetVotes { s with votes := s.votes ++ [(⟨u, TargetType.answer, tid, v⟩ : VoteDoc)] } TargetType.answer tid v) o v)) u "answer" tid v = (.ok "Vote removed", s) := by
      simp only [postVote, htt, hOwn, hFindS1, h2x, or_true, not_true, if_false,
        eq_self_iff_true, if_true]
      rw [hErase]
      exact congrArg (Prod.mk (HResult.ok "Vote removed")) (toggle_state_cancel_a s u tid o v)
    refine ⟨by rw [hfirst], ?_, ?_⟩
    · simp only [hfirst]
      rw [hsecond]
    · simp only [hfirst]
      rw [hsecond]

/-- C2 witness: user 1 has no vote on question 10 in `exState`; two identical
upvotes return the state to `exState` exactly. -/
theorem vote_toggle_cancels_witness :
    (findVote exState.votes 1 (ttOf "question") 10 = none ∧
      targetOwner exState (ttOf "question") 10 = some 0) ∧
    (postVote (postVote exState 1 "question" 10 1).2 1 "question" 10 1).2 = exState :=
  ⟨⟨by decide, by decide⟩,
    (vote_toggle_cancels exState 1 10 0 "question" 1 (Or.inl rfl) (Or.inl rfl)
      (by decide) (by decide)).2.2⟩

end DevFlow
